import Mathlib

set_option maxRecDepth 4000

namespace ReNight

/-! Shallow embedding of the self-update subsystem of ReNight:
renight_core.py (version comparison), renight_updater.py (descriptor
parsing, decision engine, request guard, stager config write) and
renight_entry.py (startup handshake and atomic replace).

Strings are modelled over the ASCII fragment that the update descriptors
and configuration values use: the Python str.strip, str.lower and
str.isdigit calls are embedded with ASCII semantics (plus the common
Unicode whitespace and line-break characters for strip and splitlines). -/

/-- Whitespace characters removed by the Python str.strip method. -/
def pyIsSpace (c : Char) : Bool :=
  c = ' ' || c = '\t' || c = '\n' || c = '\r' || c = '\x0b' || c = '\x0c' ||
  c = '\x1c' || c = '\x1d' || c = '\x1e' || c = '\x1f' || c = '\x85' || c = '\xa0' ||
  c = '\u1680' || c = '\u2000' || c = '\u2001' || c = '\u2002' || c = '\u2003' ||
  c = '\u2004' || c = '\u2005' || c = '\u2006' || c = '\u2007' || c = '\u2008' ||
  c = '\u2009' || c = '\u200a' || c = '\u2028' || c = '\u2029' || c = '\u202f' ||
  c = '\u205f' || c = '\u3000'

/-- Python s.strip over a character list: drop whitespace at both ends. -/
def pyStrip (l : List Char) : List Char :=
  ((l.dropWhile pyIsSpace).reverse.dropWhile pyIsSpace).reverse

/-- Python s.strip at the String level. -/
def pyStripStr (s : String) : String :=
  String.mk (pyStrip s.data)

/-- Split a character list on a separator character, Python str.split
semantics: the empty list yields one empty field. -/
def splitOnChar (sep : Char) : List Char → List (List Char)
  | [] => [[]]
  | c :: cs =>
    if c = sep then [] :: splitOnChar sep cs
    else
      match splitOnChar sep cs with
      | [] => [[c]]
      | h :: t => (c :: h) :: t

/-- Numeric value of a list of ASCII digits, as Python int does. -/
def natOfDigits (l : List Char) : Nat :=
  l.foldl (fun a c => 10 * a + (c.toNat - 48)) 0

/-- One dot-separated component of a version tuple: an empty component
counts as 0 (renight_core.py line 226). -/
def partVal (p : List Char) : Nat :=
  if p.isEmpty then 0 else natOfDigits p

/-- renight_core.py lines 206-232, the function named version-to-tuple
there: strip the string, keep the leading run of digits and dots, and
turn it into a numeric tuple; an empty run yields the tuple (0). -/
def version_to_tuple (version : String) : List Nat :=
  let s := pyStrip version.data
  let p := s.takeWhile (fun c => c.isDigit || c = '.')
  if p.isEmpty then [0]
  else (splitOnChar '.' p).map partVal

/-- True when the tail of the list starts with the letters b, e, t, a. -/
def hasBetaAt : List Char → Bool
  | 'b' :: 'e' :: 't' :: 'a' :: _ => true
  | _ => false

/-- Python substring test for the word beta. -/
def containsBeta : List Char → Bool
  | [] => false
  | c :: cs => hasBetaAt (c :: cs) || containsBeta cs

/-- renight_core.py lines 235-244, the beta-build classifier: the string
is stripped and lowercased, then tested for the substring beta or a
trailing letter b. -/
def is_beta_version (version : String) : Bool :=
  let s := (pyStrip version.data).map Char.toLower
  containsBeta s || s.getLast? == some 'b'

/-- Python tuple comparison (strictly less) on lists of naturals:
lexicographic, a strict prefix is smaller. -/
def tupLt : List Nat → List Nat → Bool
  | [], [] => false
  | [], _ :: _ => true
  | _ :: _, [] => false
  | x :: xs, y :: ys => if x < y then true else if y < x then false else tupLt xs ys

/-- Pad a tuple on the right with zeros up to length n
(renight_core.py lines 262-264). -/
def padTo (n : Nat) (l : List Nat) : List Nat :=
  l ++ List.replicate (n - l.length) 0

/-- renight_core.py lines 247-278: compare two version strings, returning
-1, 0 or 1; numeric tuples padded to a common length compare first, and a
beta build loses to a non-beta build of equal numeric value. -/
def compare_versions (a b : String) : Int :=
  let ta := version_to_tuple a
  let tb := version_to_tuple b
  let maxLen := max ta.length tb.length
  let ta2 := padTo maxLen ta
  let tb2 := padTo maxLen tb
  if tupLt ta2 tb2 then -1
  else if tupLt tb2 ta2 then 1
  else
    let aBeta := is_beta_version a
    let bBeta := is_beta_version b
    if aBeta && !bBeta then -1
    else if bBeta && !aBeta then 1
    else 0

/-- renight_updater.py lines 25-29: one parsed descriptor entry. -/
structure UpdateEntry where
  version : String
  flags : List String
  url : String
deriving DecidableEq

/-- Line-break characters recognized by the Python str.splitlines method. -/
def isLineBreak (c : Char) : Bool :=
  c = '\n' || c = '\r' || c = '\x0b' || c = '\x0c' || c = '\x1c' || c = '\x1d' ||
  c = '\x1e' || c = '\x85' || c = '\u2028' || c = '\u2029'

/-- Python str.splitlines: a carriage return followed by a line feed counts
as one break, and a trailing break does not produce a final empty line. -/
def splitLinesAux : List Char → List Char → List (List Char)
  | [], acc => if acc.isEmpty then [] else [acc.reverse]
  | '\r' :: '\n' :: cs, acc => acc.reverse :: splitLinesAux cs []
  | c :: cs, acc =>
    if isLineBreak c then acc.reverse :: splitLinesAux cs []
    else splitLinesAux cs (c :: acc)

/-- Python text.splitlines over a String. -/
def splitLines (text : String) : List (List Char) :=
  splitLinesAux text.data []

/-- renight_updater.py lines 60-82, the body of the descriptor-parsing
loop for one raw line: strip it, skip blanks and comment lines, split on
the bar character, skip lines with fewer than three fields, skip lines
whose os field does not case-insensitively equal the platform tag, and
otherwise build the entry (three fields mean empty flags, extra fields
beyond the fourth are ignored). -/
def lineEntry (os_tag : String) (raw : List Char) : Option UpdateEntry :=
  let line := pyStrip raw
  if line.isEmpty then none
  else if line.head? == some '#' then none
  else
    let parts := (splitOnChar '|' line).map pyStrip
    if parts.length < 3 then none
    else
      let version_str := parts.getD 0 []
      let os_name := parts.getD 1 []
      if os_name.map Char.toLower ≠ os_tag.data.map Char.toLower then none
      else
        let flags_str := if parts.length = 3 then [] else parts.getD 2 []
        let url := if parts.length = 3 then parts.getD 2 [] else parts.getD 3 []
        let flags := (splitOnChar ',' flags_str).filterMap
          (fun f =>
            let g := pyStrip f
            if g.isEmpty then none else some (String.mk (g.map Char.toLower)))
        some ⟨String.mk version_str, flags, String.mk url⟩

/-- renight_updater.py lines 84-88: fold step of the parsing loop on a
matched entry; the first component keeps the running latest entry
(replaced only on a strictly greater version), the second the running
current entry (replaced on a compare-equal version). -/
def descStep (current_version : String) (acc : Option UpdateEntry × Option UpdateEntry)
    (e : UpdateEntry) : Option UpdateEntry × Option UpdateEntry :=
  let latest := match acc.1 with
    | none => some e
    | some m => if compare_versions e.version m.version > 0 then some e else some m
  let current := if compare_versions e.version current_version = 0 then some e else acc.2
  (latest, current)

/-- renight_updater.py lines 42-90, the descriptor-parsing function:
returns the latest and current entries. -/
def parse_descriptor (text : String) (os_tag : String) (current_version : String) :
    Option UpdateEntry × Option UpdateEntry :=
  (splitLines text).foldl
    (fun acc raw =>
      match lineEntry os_tag raw with
      | none => acc
      | some e => descStep current_version acc e)
    (none, none)

/-- The entries of the descriptor lines that survive every filter of the
parsing loop, in text order. -/
def matchedEntries (text : String) (os_tag : String) : List UpdateEntry :=
  (splitLines text).filterMap (lineEntry os_tag)

/-- Proof-side restatement of the latest computation of the parsing loop,
with an explicit accumulator. -/
def selLatest (acc : Option UpdateEntry) : List UpdateEntry → Option UpdateEntry
  | [] => acc
  | e :: es =>
    match acc with
    | none => selLatest (some e) es
    | some m => selLatest (some (if compare_versions e.version m.version > 0 then e else m)) es

/-- Proof-side restatement of the current computation of the parsing loop,
with an explicit accumulator. -/
def selCurrent (current_version : String) (acc : Option UpdateEntry) :
    List UpdateEntry → Option UpdateEntry
  | [] => acc
  | e :: es =>
    selCurrent current_version
      (if compare_versions e.version current_version = 0 then some e else acc) es

/-- Modelled from the claim wording of C5: the entry whose version string
exactly equals the running version, among the matched lines. -/
def specCurrentExact (text os_tag current_version : String) : Option UpdateEntry :=
  (matchedEntries text os_tag).find? (fun e => e.version == current_version)

/-- Specification-side description of the latest output: absent exactly on
an empty match list, and otherwise the first entry whose version is
greatest under compare-versions (every match compares at most equal to it,
and every earlier match compares strictly less). -/
def IsFirstMax (M : List UpdateEntry) : Option UpdateEntry → Prop
  | none => M = []
  | some e =>
      (∀ x ∈ M, compare_versions x.version e.version ≤ 0) ∧
      ∃ l1 l2, M = l1 ++ e :: l2 ∧ ∀ x ∈ l1, compare_versions x.version e.version < 0

/-- renight_updater.py lines 279-315, the decision part of the function
that finalizes a descriptor result (the dialog calls themselves are
presentation and are not modelled): returns the result string handed to
the request callback. The skip-version argument stands for the value the
get-skip-version callback returned (an exception there degenerates to the
empty string, covered by quantifying over the argument). -/
def finalize_descriptor_result (app_version skip_version : String) (ignore_skip : Bool)
    (status : String) (latest current : Option UpdateEntry) : String :=
  if status ≠ "ok" then "error"
  else
    match latest with
    | none => "error"
    | some l =>
      let dep : Bool := match current with
        | some c => c.flags.contains "deprecated"
        | none => false
      if dep then "deprecated"
      else if compare_versions l.version app_version ≤ 0 then "no_update"
      else
        let skip := pyStripStr skip_version
        if !ignore_skip && !skip.isEmpty && skip == l.version then "no_update"
        else "update_available"

/-- renight_updater.py lines 205-210: the request-relevant fields of the
update client; the result callback is modelled by an opaque identifier. -/
structure ClientState where
  os_tag : String
  in_flight : Bool
  ignore_skip_req : Bool
  result_cb : Option Nat
deriving DecidableEq

/-- Outcome of one call of the descriptor-request method: the client state
afterwards, the result delivered synchronously to the callback passed to
this call (if any), and whether a network request was issued. -/
structure RequestOutcome where
  state : ClientState
  immediate : Option String
  network_get : Bool
deriving DecidableEq

/-- renight_updater.py lines 219-237, the guard part of the
descriptor-request method: an empty platform tag or an in-flight request
resolves immediately as error, otherwise the in-flight flag is set, the
per-request fields are stored, and a network get is issued. -/
def request_descriptor (st : ClientState) (ignore_skip : Bool) (cb : Option Nat) :
    RequestOutcome :=
  if st.os_tag = "" then ⟨st, some "error", false⟩
  else if st.in_flight then ⟨st, some "error", false⟩
  else ⟨{ st with in_flight := true, ignore_skip_req := ignore_skip, result_cb := cb },
        none, true⟩

/-- Content and permission bits of one file. -/
structure FileData where
  content : List Nat
  mode : Nat
deriving DecidableEq

/-- A flat view of the filesystem: file data by path, directory flags by
path. Path strings are compared literally; symlink resolution lives in
the abstract canonicalization function passed to the handshake. -/
structure FS where
  files : String → Option FileData
  dirs : String → Bool

/-- Create or overwrite one file. -/
def setFile (fs : FS) (p : String) (d : FileData) : FS :=
  { fs with files := fun q => if q = p then some d else fs.files q }

/-- Remove one file if present. -/
def removeFile (fs : FS) (p : String) : FS :=
  { fs with files := fun q => if q = p then none else fs.files q }

/-- Mark one directory as existing (os.makedirs with exist-ok; the
creation of intermediate parents is irrelevant to the claims and elided). -/
def addDir (fs : FS) (d : String) : FS :=
  { fs with dirs := fun q => if q = d then true else fs.dirs q }

/-- True when p lies strictly below directory d. -/
def underDir (d p : String) : Bool :=
  p.startsWith (d ++ "/")

/-- shutil.rmtree: remove the directory and everything below it. -/
def rmtreeFS (fs : FS) (d : String) : FS :=
  { files := fun q => if underDir d q then none else fs.files q,
    dirs := fun q => if q = d || underDir d q then false else fs.dirs q }

/-- Failure-injection oracle: one flag per fallible operating-system call
of the startup handshake; a set flag makes that call raise. -/
structure Faults where
  mkdirs_fail : Bool
  copy_fail : Bool
  chmod_fail : Bool
  replace_fail : Bool
  unlink_fail : Bool
  launch_fail : Bool
  remove_cleanup_fail : Bool
  remove_archive_fail : Bool
  rmtree_fail : Bool
deriving DecidableEq

/-- The oracle under which every operating-system call succeeds. -/
def noFaults : Faults :=
  ⟨false, false, false, false, false, false, false, false, false⟩

/-- renight_entry.py lines 53-56: the unlink in the finally block of the
atomic replace; any OSError (including a missing file) is swallowed. -/
def unlinkBestEffort (f : Faults) (fs : FS) (p : String) : FS :=
  if f.unlink_fail then fs else removeFile fs p

/-- renight_entry.py lines 37-56, the atomic-replace helper: make a fresh
temporary file next to dst (mkstemp), copy src onto it, set its execute
bits, atomically rename it over dst; the finally block unlinks the
temporary file best-effort. Returns the filesystem afterwards and whether
the replace completed without raising. The fresh temporary path chosen by
mkstemp is passed in as tmp. -/
def atomic_replace (f : Faults) (src dst tmp : String) (fs : FS) : FS × Bool :=
  let fs0 := setFile fs tmp ⟨[], 0o600⟩
  if f.copy_fail then (unlinkBestEffort f fs0 tmp, false)
  else
    match fs0.files src with
    | none => (unlinkBestEffort f fs0 tmp, false)
    | some srcData =>
      let fs1 := setFile fs0 tmp srcData
      if f.chmod_fail then (unlinkBestEffort f fs1 tmp, false)
      else
        let fs2 := setFile fs1 tmp ⟨srcData.content, srcData.mode ||| 0o111⟩
        if f.replace_fail then (unlinkBestEffort f fs2 tmp, false)
        else
          let fs3 := removeFile (setFile fs2 dst ⟨srcData.content, srcData.mode ||| 0o111⟩) tmp
          (unlinkBestEffort f fs3 tmp, true)

/-- The persisted update keys of the JSON configuration
(renight_entry.py lines 139-147). A missing key and an empty value are
indistinguishable to the handshake (every read defaults to the empty
string), so popping a key is modelled as setting it empty. The keys not
related to updates are never touched by the handshake and are elided. -/
structure Config where
  update_state : String
  update_version : String
  update_old_exe : String
  update_staged_exe : String
  update_stage_dir : String
  update_archive : String
  update_cleanup_exe : String
deriving DecidableEq

/-- The configuration with every update key cleared. -/
def clearedConfig : Config := ⟨"", "", "", "", "", "", ""⟩

/-- Outcome of one run of the startup handshake: the update keys as they
stand at the end (persisted when saved is true), the filesystem, whether
save-config-dict ran, whether a relaunch was started, and whether the
process exited. -/
structure StartupResult where
  cfg : Config
  fs : FS
  saved : Bool
  launched : Bool
  exited : Bool

/-- os.path.dirname on a POSIX path: everything before the last slash,
with trailing slashes stripped unless the result is only slashes. -/
def pyDirname (p : String) : String :=
  let r := p.data.reverse
  let rest := r.dropWhile (fun c => c ≠ '/')
  if rest.isEmpty then ""
  else
    let head := rest.reverse
    if head.all (fun c => c = '/') then String.mk head
    else String.mk (head.reverse.dropWhile (fun c => c = '/')).reverse

/-- renight_entry.py line 80: the canonicalized staged path, empty when
the stored value is empty. -/
def stagedPath (canon : String → String) (cfg : Config) : String :=
  if cfg.update_staged_exe ≠ "" then canon cfg.update_staged_exe else ""

/-- renight_entry.py line 81: the canonicalized old path, empty when the
stored value is empty. -/
def oldPath (canon : String → String) (cfg : Config) : String :=
  if cfg.update_old_exe ≠ "" then canon cfg.update_old_exe else ""

/-- renight_entry.py lines 59-196, the startup handshake run before the
user interface starts. The canonicalization performed by os.path.realpath
of os.path.abspath is the abstract parameter canon, and the canonical
path of the running executable is the parameter this-exe. The Unix launch
branch (chmod then spawn) is the one modelled; the Windows branch differs
only in the launch primitive, not in any state or file logic. The fresh
path handed out by mkstemp inside the atomic replace is the parameter
tmp. -/
def handle_pending_update_startup (canon : String → String) (this_exe : String)
    (f : Faults) (tmp : String) (cfg : Config) (fs : FS) : StartupResult :=
  let state := pyStripStr cfg.update_state
  if state = "" then ⟨cfg, fs, false, false, false⟩
  else
    let staged_exe := stagedPath canon cfg
    let old_exe := oldPath canon cfg
    if state = "staged" then
      if staged_exe = "" || old_exe = "" then
        ⟨{ cfg with update_state := "" }, fs, true, false, false⟩
      else if this_exe ≠ staged_exe then
        ⟨cfg, fs, false, false, false⟩
      else if f.mkdirs_fail then
        ⟨{ cfg with update_state := "" }, fs, true, false, false⟩
      else
        let d := pyDirname old_exe
        let fs0 := addDir fs (if d = "" then "." else d)
        match atomic_replace f staged_exe old_exe tmp fs0 with
        | (fs1, false) => ⟨{ cfg with update_state := "" }, fs1, true, false, false⟩
        | (fs1, true) =>
          let cfg1 := { cfg with update_state := "copied", update_cleanup_exe := staged_exe }
          if f.launch_fail then ⟨cfg1, fs1, true, false, false⟩
          else
            let fs2 := match fs1.files old_exe with
              | some od => setFile fs1 old_exe ⟨od.content, od.mode ||| 0o111⟩
              | none => fs1
            ⟨cfg1, fs2, true, true, true⟩
    else if state = "copied" then
      if old_exe = "" then
        ⟨clearedConfig, fs, true, false, false⟩
      else if this_exe ≠ old_exe then
        ⟨cfg, fs, false, false, false⟩
      else
        let cleanup_exe := cfg.update_cleanup_exe
        let stage_dir := cfg.update_stage_dir
        let archive := cfg.update_archive
        let fsA := if cleanup_exe ≠ "" && (fs.files cleanup_exe).isSome && !f.remove_cleanup_fail
          then removeFile fs cleanup_exe else fs
        let fsB := if archive ≠ "" && (fsA.files archive).isSome && !f.remove_archive_fail
          then removeFile fsA archive else fsA
        let fsC := if stage_dir ≠ "" && fsB.dirs stage_dir && !f.rmtree_fail
          then rmtreeFS fsB stage_dir else fsB
        ⟨clearedConfig, fsC, true, false, false⟩
    else ⟨cfg, fs, false, false, false⟩

/-- renight_updater.py lines 590-598, the configuration write of the
update stager when a staged binary is ready: the update keys it stores
(the caller passes the already-absolutized paths). -/
def finalize_cfg_write (version old_exe staged_exe stage_dir archive : String) : Config :=
  ⟨"staged", version, old_exe, staged_exe, stage_dir, archive, ""⟩

/-- Specification-side statement of the data-model invariant of claim C3:
the state is none exactly when every other update field is empty. -/
def claimInvariant (c : Config) : Prop :=
  c.update_state = "" ↔
    (c.update_version = "" ∧ c.update_old_exe = "" ∧ c.update_staged_exe = "" ∧
     c.update_stage_dir = "" ∧ c.update_archive = "" ∧ c.update_cleanup_exe = "")

instance (c : Config) : Decidable (claimInvariant c) := by
  unfold claimInvariant
  infer_instance

/-- Modelled from the claim wording of C7 (no whitespace strip): the
numeric tuple read from the very start of the string, stopping at the
first character that is neither a digit nor a dot. -/
def claimTuple (version : String) : List Nat :=
  let p := version.data.takeWhile (fun c => c.isDigit || c = '.')
  if p.isEmpty then [0]
  else (splitOnChar '.' p).map partVal

/-- Modelled from the claim wording of C7 (no whitespace strip): beta
classification by the substring beta or a trailing letter b,
case-insensitively. -/
def claimIsBeta (version : String) : Bool :=
  let s := version.data.map Char.toLower
  containsBeta s || s.getLast? == some 'b'

/-- Modelled from the claim wording of C7: the comparison algorithm as the
claim states it, on the raw strings with no whitespace strip. -/
def compareClaimLit (a b : String) : Int :=
  let ta := claimTuple a
  let tb := claimTuple b
  let n := max ta.length tb.length
  if tupLt (padTo n ta) (padTo n tb) then -1
  else if tupLt (padTo n tb) (padTo n ta) then 1
  else if claimIsBeta a && !claimIsBeta b then -1
  else if claimIsBeta b && !claimIsBeta a then 1
  else 0

/-- Specification-side strict tuple order: some position of the
zero-extended sequences is strictly smaller, all earlier positions equal. -/
def specTupleLt (l1 l2 : List Nat) : Prop :=
  ∃ i, l1.getD i 0 < l2.getD i 0 ∧ ∀ j, j < i → l1.getD j 0 = l2.getD j 0

/-- Specification-side tuple equality: the zero-extended sequences agree
everywhere (missing trailing components count as 0). -/
def specTupleEq (l1 l2 : List Nat) : Prop :=
  ∀ i, l1.getD i 0 = l2.getD i 0

/-! Order-theoretic facts about the Python tuple comparison. -/

theorem tupLt_irrefl (l : List Nat) : tupLt l l = false := by
  induction l with
  | nil => rfl
  | cons x xs ih => simp [tupLt, ih]

theorem tupLt_asymm : ∀ l₁ l₂ : List Nat, tupLt l₁ l₂ = true → tupLt l₂ l₁ = false := by
  intro l₁
  induction l₁ with
  | nil =>
    intro l₂ h
    cases l₂ with
    | nil => simp [tupLt] at h
    | cons y ys => simp [tupLt]
  | cons x xs ih =>
    intro l₂ h
    cases l₂ with
    | nil => simp [tupLt] at h
    | cons y ys =>
      rcases Nat.lt_trichotomy x y with hxy | hxy | hxy
      · simp [tupLt, hxy, Nat.lt_asymm hxy]
      · subst hxy
        simp only [tupLt, lt_self_iff_false, if_false] at h ⊢
        exact ih ys h
      · simp [tupLt, hxy, Nat.lt_asymm hxy] at h

theorem tupLt_trans : ∀ l₁ l₂ l₃ : List Nat,
    tupLt l₁ l₂ = true → tupLt l₂ l₃ = true → tupLt l₁ l₃ = true := by
  intro l₁
  induction l₁ with
  | nil =>
    intro l₂ l₃ h₁ h₂
    cases l₂ with
    | nil => simp [tupLt] at h₁
    | cons y ys =>
      cases l₃ with
      | nil => simp [tupLt] at h₂
      | cons z zs => simp [tupLt]
  | cons x xs ih =>
    intro l₂ l₃ h₁ h₂
    cases l₂ with
    | nil => simp [tupLt] at h₁
    | cons y ys =>
      cases l₃ with
      | nil => simp [tupLt] at h₂
      | cons z zs =>
        rcases Nat.lt_trichotomy x y with hxy | hxy | hxy
        · rcases Nat.lt_trichotomy y z with hyz | hyz | hyz
          · simp [tupLt, Nat.lt_trans hxy hyz]
          · subst hyz; simp [tupLt, hxy]
          · simp [tupLt, hyz, Nat.lt_asymm hyz] at h₂
        · subst hxy
          rcases Nat.lt_trichotomy x z with hyz | hyz | hyz
          · simp [tupLt, hyz]
          · subst hyz
            simp only [tupLt, lt_self_iff_false, if_false] at h₁ h₂ ⊢
            exact ih ys zs h₁ h₂
          · simp [tupLt, hyz, Nat.lt_asymm hyz] at h₂
        · simp [tupLt, hxy, Nat.lt_asymm hxy] at h₁

theorem tupLt_connex : ∀ l₁ l₂ : List Nat, l₁.length = l₂.length →
    tupLt l₁ l₂ = false → tupLt l₂ l₁ = false → l₁ = l₂ := by
  intro l₁
  induction l₁ with
  | nil =>
    intro l₂ hlen _ _
    cases l₂ with
    | nil => rfl
    | cons y ys => simp at hlen
  | cons x xs ih =>
    intro l₂ hlen h₁ h₂
    cases l₂ with
    | nil => simp at hlen
    | cons y ys =>
      rcases Nat.lt_trichotomy x y with hxy | hxy | hxy
      · simp [tupLt, hxy] at h₁
      · subst hxy
        simp only [tupLt, lt_self_iff_false, if_false] at h₁ h₂
        have := ih ys (by simpa using hlen) h₁ h₂
        rw [this]
      · simp [tupLt, hxy, Nat.lt_asymm hxy] at h₂

theorem tupLt_append_same : ∀ u v w : List Nat, u.length = v.length →
    tupLt (u ++ w) (v ++ w) = tupLt u v := by
  intro u
  induction u with
  | nil =>
    intro v w hlen
    cases v with
    | nil => simpa [tupLt] using tupLt_irrefl w
    | cons y ys => simp at hlen
  | cons x xs ih =>
    intro v w hlen
    cases v with
    | nil => simp at hlen
    | cons y ys =>
      rcases Nat.lt_trichotomy x y with hxy | hxy | hxy
      · simp [tupLt, hxy]
      · subst hxy
        simp only [List.cons_append, tupLt, lt_self_iff_false, if_false]
        exact ih ys w (by simpa using hlen)
      · simp [tupLt, hxy, Nat.lt_asymm hxy]

theorem padTo_length_of_le (n : Nat) (l : List Nat) (h : l.length ≤ n) :
    (padTo n l).length = n := by
  simp [padTo]
  omega

theorem padTo_add (n m : Nat) (l : List Nat) (h : l.length ≤ n) :
    padTo (n + m) l = padTo n l ++ List.replicate m 0 := by
  have : n + m - l.length = (n - l.length) + m := by omega
  simp [padTo, List.append_assoc, ← List.replicate_add, this]

theorem tupLt_pad_congr (l₁ l₂ : List Nat) (n m : Nat)
    (h₁ : l₁.length ≤ n) (h₂ : l₂.length ≤ n) (hnm : n ≤ m) :
    tupLt (padTo m l₁) (padTo m l₂) = tupLt (padTo n l₁) (padTo n l₂) := by
  obtain ⟨k, rfl⟩ : ∃ k, m = n + k := ⟨m - n, by omega⟩
  rw [padTo_add n k l₁ h₁, padTo_add n k l₂ h₂]
  exact tupLt_append_same _ _ _
    (by rw [padTo_length_of_le n l₁ h₁, padTo_length_of_le n l₂ h₂])

/-- The comparison of renight_core.py, rewritten with both tuples padded
to an arbitrary common length that covers them. -/
theorem compare_versions_eq_pad (a b : String) (N : Nat)
    (ha : (version_to_tuple a).length ≤ N) (hb : (version_to_tuple b).length ≤ N) :
    compare_versions a b =
      (if tupLt (padTo N (version_to_tuple a)) (padTo N (version_to_tuple b)) then -1
       else if tupLt (padTo N (version_to_tuple b)) (padTo N (version_to_tuple a)) then 1
       else if is_beta_version a && !is_beta_version b then -1
       else if is_beta_version b && !is_beta_version a then 1
       else 0) := by
  have hm : max (version_to_tuple a).length (version_to_tuple b).length ≤ N :=
    Nat.max_le.mpr ⟨ha, hb⟩
  have e₁ := tupLt_pad_congr (version_to_tuple a) (version_to_tuple b)
    (max (version_to_tuple a).length (version_to_tuple b).length) N
    (Nat.le_max_left _ _) (Nat.le_max_right _ _) hm
  have e₂ := tupLt_pad_congr (version_to_tuple b) (version_to_tuple a)
    (max (version_to_tuple a).length (version_to_tuple b).length) N
    (Nat.le_max_right _ _) (Nat.le_max_left _ _) hm
  rw [show compare_versions a b =
      (if tupLt (padTo (max (version_to_tuple a).length (version_to_tuple b).length)
            (version_to_tuple a))
          (padTo (max (version_to_tuple a).length (version_to_tuple b).length)
            (version_to_tuple b)) then -1
       else if tupLt (padTo (max (version_to_tuple a).length (version_to_tuple b).length)
            (version_to_tuple b))
          (padTo (max (version_to_tuple a).length (version_to_tuple b).length)
            (version_to_tuple a)) then 1
       else if is_beta_version a && !is_beta_version b then -1
       else if is_beta_version b && !is_beta_version a then 1
       else 0) from rfl, e₁, e₂]

theorem compare_versions_self (a : String) : compare_versions a a = 0 := by
  simp [compare_versions, tupLt_irrefl]

theorem compare_versions_antisymm (a b : String) :
    compare_versions a b = -compare_versions b a := by
  set ta := version_to_tuple a with hta
  set tb := version_to_tuple b with htb
  set N := max ta.length tb.length with hN
  have hca := compare_versions_eq_pad a b N (Nat.le_max_left _ _) (Nat.le_max_right _ _)
  have hcb := compare_versions_eq_pad b a N (Nat.le_max_right _ _) (Nat.le_max_left _ _)
  rw [hca, hcb]
  cases h₁ : tupLt (padTo N ta) (padTo N tb) with
  | true => simp [h₁, tupLt_asymm _ _ h₁]
  | false =>
    cases h₂ : tupLt (padTo N tb) (padTo N ta) with
    | true => simp [h₁, h₂]
    | false =>
      cases hba : is_beta_version a <;> cases hbb : is_beta_version b <;>
        simp [h₁, h₂, hba, hbb]

/-- Shared transitivity bundle for the comparator: weak, and strict on
either side. -/
theorem compare_versions_trans_all (a b c : String) :
    (compare_versions a b ≤ 0 → compare_versions b c ≤ 0 → compare_versions a c ≤ 0) ∧
    (compare_versions a b < 0 → compare_versions b c ≤ 0 → compare_versions a c < 0) ∧
    (compare_versions a b ≤ 0 → compare_versions b c < 0 → compare_versions a c < 0) := by
  set la := version_to_tuple a with hla
  set lb := version_to_tuple b with hlb
  set lc := version_to_tuple c with hlc
  set N := max la.length (max lb.length lc.length) with hN
  have hNa : la.length ≤ N := Nat.le_max_left _ _
  have hNb : lb.length ≤ N := le_trans (Nat.le_max_left _ _) (Nat.le_max_right _ _)
  have hNc : lc.length ≤ N := le_trans (Nat.le_max_right _ _) (Nat.le_max_right _ _)
  have hab := compare_versions_eq_pad a b N hNa hNb
  have hbc := compare_versions_eq_pad b c N hNb hNc
  have hac := compare_versions_eq_pad a c N hNa hNc
  set A := padTo N la with hA
  set B := padTo N lb with hB
  set C := padTo N lc with hC
  have lenAB : A.length = B.length := by
    rw [hA, hB, padTo_length_of_le N la hNa, padTo_length_of_le N lb hNb]
  have lenBC : B.length = C.length := by
    rw [hB, hC, padTo_length_of_le N lb hNb, padTo_length_of_le N lc hNc]
  rw [hab, hbc, hac]
  cases h₁ : tupLt A B with
  | true =>
    cases h₂ : tupLt B C with
    | true =>
      have h₃ := tupLt_trans A B C h₁ h₂
      simp [h₃]
    | false =>
      cases h₂' : tupLt C B with
      | true => simp [h₂, h₂']
      | false =>
        have hBC : B = C := tupLt_connex B C lenBC h₂ h₂'
        rw [← hBC]
        simp [h₁]
  | false =>
    cases h₁' : tupLt B A with
    | true => simp [h₁, h₁']
    | false =>
      have hAB : A = B := tupLt_connex A B lenAB h₁ h₁'
      rw [← hAB]
      cases h₂ : tupLt A C with
      | true => simp [h₂]
      | false =>
        cases h₂' : tupLt C A with
        | true => simp [h₂, h₂']
        | false =>
          cases hba : is_beta_version a <;> cases hbb : is_beta_version b <;>
            cases hbc' : is_beta_version c <;> simp [h₂, h₂', hba, hbb, hbc']

/-- Claim C8: compare is reflexive-zero, antisymmetric and transitive on
all version strings, malformed ones included. -/
theorem C8_compare_total_order :
    (∀ a : String, compare_versions a a = 0) ∧
    (∀ a b : String, compare_versions a b = -compare_versions b a) ∧
    (∀ a b c : String, compare_versions a b ≤ 0 → compare_versions b c ≤ 0 →
      compare_versions a c ≤ 0) := by
  refine ⟨compare_versions_self, compare_versions_antisymm, ?_⟩
  intro a b c hab hbc
  exact (compare_versions_trans_all a b c).1 hab hbc

/-- Witness for C8 at concrete inputs from the representative ordered set
of the specification. -/
theorem C8_compare_total_order_witness :
    compare_versions "0.02" "0.3-beta" ≤ 0 ∧ compare_versions "0.3-beta" "1.0" ≤ 0 ∧
    compare_versions "0.02" "1.0" ≤ 0 :=
  ⟨by decide, by decide,
   C8_compare_total_order.2.2 "0.02" "0.3-beta" "1.0" (by decide) (by decide)⟩

/-! Bridge between the padded tuple comparison of the code and the
first-difference description used by the specification side. -/

theorem getD_replicate_zero (k j : Nat) : (List.replicate k (0 : Nat)).getD j 0 = 0 := by
  by_cases h : j < k
  · simp [List.getD, List.getElem?_replicate, h]
  · rw [List.getD_eq_default]
    simpa using Nat.le_of_not_lt h

theorem padTo_getD (n : Nat) (l : List Nat) (i : Nat) :
    (padTo n l).getD i 0 = l.getD i 0 := by
  unfold padTo
  by_cases h : i < l.length
  · rw [List.getD_append _ _ _ _ h]
  · rw [List.getD_append_right _ _ _ _ (Nat.le_of_not_lt h), getD_replicate_zero,
      List.getD_eq_default _ _ (Nat.le_of_not_lt h)]

theorem tupLt_iff_firstDiff : ∀ l₁ l₂ : List Nat, l₁.length = l₂.length →
    (tupLt l₁ l₂ = true ↔
      ∃ i, l₁.getD i 0 < l₂.getD i 0 ∧ ∀ j, j < i → l₁.getD j 0 = l₂.getD j 0) := by
  intro l₁
  induction l₁ with
  | nil =>
    intro l₂ hlen
    cases l₂ with
    | nil => simp [tupLt]
    | cons y ys => simp at hlen
  | cons x xs ih =>
    intro l₂ hlen
    cases l₂ with
    | nil => simp at hlen
    | cons y ys =>
      rcases Nat.lt_trichotomy x y with hxy | hxy | hxy
      · simp only [tupLt, hxy, if_true, true_iff]
        exact ⟨0, by simpa using hxy, fun j hj => by omega⟩
      · subst hxy
        simp only [tupLt, lt_self_iff_false, if_false]
        rw [ih ys (by simpa using hlen)]
        constructor
        · rintro ⟨i, hi, hj⟩
          refine ⟨i + 1, by simpa using hi, ?_⟩
          intro j hj'
          cases j with
          | zero => simp
          | succ j' => simpa using hj j' (by omega)
        · rintro ⟨i, hi, hj⟩
          cases i with
          | zero => simp at hi
          | succ i' =>
            refine ⟨i', by simpa using hi, ?_⟩
            intro j hj'
            have := hj (j + 1) (by omega)
            simpa using this
      · rw [show tupLt (x :: xs) (y :: ys) = false by simp [tupLt, hxy, Nat.lt_asymm hxy]]
        simp only [Bool.false_eq_true, false_iff]
        rintro ⟨i, hi, hj⟩
        cases i with
        | zero => simp at hi; omega
        | succ i' =>
          have := hj 0 (by omega)
          simp at this
          omega

theorem tupLt_pad_iff_specLt (l₁ l₂ : List Nat) (n : Nat)
    (h₁ : l₁.length ≤ n) (h₂ : l₂.length ≤ n) :
    (tupLt (padTo n l₁) (padTo n l₂) = true ↔ specTupleLt l₁ l₂) := by
  rw [tupLt_iff_firstDiff _ _
    (by rw [padTo_length_of_le n l₁ h₁, padTo_length_of_le n l₂ h₂])]
  unfold specTupleLt
  constructor
  · rintro ⟨i, hi, hj⟩
    refine ⟨i, ?_, fun j hj' => ?_⟩
    · rwa [padTo_getD, padTo_getD] at hi
    · have := hj j hj'
      rwa [padTo_getD, padTo_getD] at this
  · rintro ⟨i, hi, hj⟩
    refine ⟨i, ?_, fun j hj' => ?_⟩
    · rwa [padTo_getD, padTo_getD]
    · rw [padTo_getD, padTo_getD]
      exact hj j hj'

theorem pad_eq_iff_specEq (l₁ l₂ : List Nat) (n : Nat)
    (h₁ : l₁.length ≤ n) (h₂ : l₂.length ≤ n) :
    (padTo n l₁ = padTo n l₂ ↔ specTupleEq l₁ l₂) := by
  constructor
  · intro h i
    have h2 : (padTo n l₁).getD i 0 = (padTo n l₂).getD i 0 := by rw [h]
    rwa [padTo_getD, padTo_getD] at h2
  · intro h
    apply List.ext_getElem
      (by rw [padTo_length_of_le n l₁ h₁, padTo_length_of_le n l₂ h₂])
    intro i hi₁ hi₂
    have h3 := h i
    rw [← padTo_getD n l₁ i, ← padTo_getD n l₂ i] at h3
    rwa [List.getD_eq_getElem _ _ hi₁, List.getD_eq_getElem _ _ hi₂] at h3

theorem claimTuple_strip (a : String) : claimTuple (pyStripStr a) = version_to_tuple a := rfl

theorem claimIsBeta_strip (a : String) : claimIsBeta (pyStripStr a) = is_beta_version a := rfl

/-- Claim C7 as amended: the comparator implements the claimed algorithm
on the whitespace-stripped strings: the result is decided by the first
position where the zero-extended numeric tuples differ, and on numeric
equality by the beta classification; plus the two concrete examples of
the claim. -/
theorem C7_compare_algorithm :
    (∀ a b : String,
      (compare_versions a b = -1 ↔
        (specTupleLt (claimTuple (pyStripStr a)) (claimTuple (pyStripStr b)) ∨
         (specTupleEq (claimTuple (pyStripStr a)) (claimTuple (pyStripStr b)) ∧
          claimIsBeta (pyStripStr a) = true ∧ claimIsBeta (pyStripStr b) = false))) ∧
      (compare_versions a b = 1 ↔
        (specTupleLt (claimTuple (pyStripStr b)) (claimTuple (pyStripStr a)) ∨
         (specTupleEq (claimTuple (pyStripStr a)) (claimTuple (pyStripStr b)) ∧
          claimIsBeta (pyStripStr b) = true ∧ claimIsBeta (pyStripStr a) = false))) ∧
      (compare_versions a b = 0 ↔
        (specTupleEq (claimTuple (pyStripStr a)) (claimTuple (pyStripStr b)) ∧
         claimIsBeta (pyStripStr a) = claimIsBeta (pyStripStr b)))) ∧
    compare_versions "0.03-beta" "0.03" = -1 ∧ compare_versions "0.03" "0.03-beta" = 1 := by
  refine ⟨?_, by decide, by decide⟩
  intro a b
  rw [claimTuple_strip, claimTuple_strip, claimIsBeta_strip, claimIsBeta_strip]
  set ta := version_to_tuple a with hta
  set tb := version_to_tuple b with htb
  set N := max ta.length tb.length with hN
  have hNa : ta.length ≤ N := Nat.le_max_left _ _
  have hNb : tb.length ≤ N := Nat.le_max_right _ _
  have hpad := compare_versions_eq_pad a b N hNa hNb
  set A := padTo N ta with hA
  set B := padTo N tb with hB
  have lenAB : A.length = B.length := by
    rw [hA, hB, padTo_length_of_le N ta hNa, padTo_length_of_le N tb hNb]
  have hiff₁ := tupLt_pad_iff_specLt ta tb N hNa hNb
  have hiff₂ := tupLt_pad_iff_specLt tb ta N hNb hNa
  have hiffE := pad_eq_iff_specEq ta tb N hNa hNb
  rw [← hA, ← hB] at hiff₁ hiff₂ hiffE
  rw [hpad]
  cases h₁ : tupLt A B with
  | true =>
    have hs₁ : specTupleLt ta tb := hiff₁.mp h₁
    have hn₂ : ¬ specTupleLt tb ta := by
      intro h
      have h3 := hiff₂.mpr h
      rw [tupLt_asymm A B h₁] at h3
      exact Bool.false_ne_true h3
    have hnE : ¬ specTupleEq ta tb := by
      intro h
      have hab := hiffE.mpr h
      rw [hab, tupLt_irrefl] at h₁
      exact Bool.false_ne_true h₁
    simp [h₁, hs₁, hn₂, hnE]
  | false =>
    cases h₂ : tupLt B A with
    | true =>
      have hs₂ : specTupleLt tb ta := hiff₂.mp h₂
      have hn₁ : ¬ specTupleLt ta tb := by
        intro h
        have h3 := hiff₁.mpr h
        rw [h₁] at h3
        exact Bool.false_ne_true h3
      have hnE : ¬ specTupleEq ta tb := by
        intro h
        have hab := hiffE.mpr h
        rw [hab, tupLt_irrefl] at h₂
        exact Bool.false_ne_true h₂
      simp [h₁, h₂, hs₂, hn₁, hnE]
    | false =>
      have hAB : A = B := tupLt_connex A B lenAB h₁ h₂
      have hsE : specTupleEq ta tb := hiffE.mp hAB
      have hn₁ : ¬ specTupleLt ta tb := by
        intro h
        have h3 := hiff₁.mpr h
        rw [h₁] at h3
        exact Bool.false_ne_true h3
      have hn₂ : ¬ specTupleLt tb ta := by
        intro h
        have h3 := hiff₂.mpr h
        rw [h₂] at h3
        exact Bool.false_ne_true h3
      cases hba : is_beta_version a <;> cases hbb : is_beta_version b <;>
        simp [h₁, h₂, hsE, hn₁, hn₂, hba, hbb]

/-- Counterexample to claim C7 as stated: the code strips surrounding
whitespace before both the numeric parse and the beta classification, the
claimed algorithm reads the raw string; they disagree on a leading space
and on a trailing space after a beta marker. -/
theorem C7_counterexample :
    compare_versions " 1" "1" ≠ compareClaimLit " 1" "1" ∧
    compare_versions "1b " "1" ≠ compareClaimLit "1b " "1" :=
  ⟨by decide, by decide⟩

/-! Parser correctness: the fold of the parsing loop computes the first
maximum and the last compare-equal entry of the matched lines. -/

theorem compare_versions_pos_iff (a b : String) :
    compare_versions a b > 0 ↔ compare_versions b a < 0 := by
  rw [compare_versions_antisymm a b]
  omega

theorem parse_fold_aux (os_tag cur : String) : ∀ (lines : List (List Char))
    (acc : Option UpdateEntry × Option UpdateEntry),
    lines.foldl
      (fun acc raw =>
        match lineEntry os_tag raw with
        | none => acc
        | some e => descStep cur acc e) acc =
    (lines.filterMap (lineEntry os_tag)).foldl (descStep cur) acc := by
  intro lines
  induction lines with
  | nil => intro acc; rfl
  | cons raw rest ih =>
    intro acc
    cases h : lineEntry os_tag raw with
    | none => simp [List.foldl_cons, List.filterMap_cons, h, ih]
    | some e => simp [List.foldl_cons, List.filterMap_cons, h, ih]

theorem parse_descriptor_eq_fold (text os_tag cur : String) :
    parse_descriptor text os_tag cur =
      (matchedEntries text os_tag).foldl (descStep cur) (none, none) := by
  unfold parse_descriptor matchedEntries
  exact parse_fold_aux os_tag cur (splitLines text) (none, none)

theorem foldl_descStep (cur : String) : ∀ (M : List UpdateEntry)
    (a c : Option UpdateEntry),
    M.foldl (descStep cur) (a, c) = (selLatest a M, selCurrent cur c M) := by
  intro M
  induction M with
  | nil => intro a c; rfl
  | cons e es ih =>
    intro a c
    cases a with
    | none => simp [List.foldl_cons, descStep, selLatest, selCurrent, ih]
    | some m =>
      by_cases hc : compare_versions e.version m.version > 0 <;>
        simp [List.foldl_cons, descStep, selLatest, selCurrent, hc, ih]

theorem selCurrent_eq_find (cur : String) : ∀ (M : List UpdateEntry)
    (acc : Option UpdateEntry),
    selCurrent cur acc M =
      (match M.reverse.find? (fun e => compare_versions e.version cur == 0) with
       | some x => some x
       | none => acc) := by
  intro M
  induction M with
  | nil => intro acc; rfl
  | cons e es ih =>
    intro acc
    rw [selCurrent, ih]
    rw [show (e :: es).reverse = es.reverse ++ [e] from by simp]
    rw [List.find?_append]
    cases hfind : es.reverse.find? (fun e => compare_versions e.version cur == 0) with
    | some x => simp
    | none =>
      by_cases hc : compare_versions e.version cur = 0
      · have hb : (compare_versions e.version cur == 0) = true := beq_iff_eq.mpr hc
        simp [List.find?_cons, hb, hc, Option.orElse]
      · have hb : (compare_versions e.version cur == 0) = false := by
          simp [hc]
        simp [List.find?_cons, hb, hc, Option.orElse]

theorem isFirstMax_cons_ge (m e : UpdateEntry) (es : List UpdateEntry)
    (r : Option UpdateEntry) (hc : compare_versions e.version m.version > 0)
    (h : IsFirstMax (e :: es) r) : IsFirstMax (m :: e :: es) r := by
  cases r with
  | none => exact absurd h (by simp [IsFirstMax])
  | some r0 =>
    obtain ⟨hall, l1, l2, hdec, hstrict⟩ := h
    have hme : compare_versions m.version e.version < 0 :=
      (compare_versions_pos_iff e.version m.version).mp hc
    have her : compare_versions e.version r0.version ≤ 0 := hall e (by simp)
    have hmr : compare_versions m.version r0.version < 0 :=
      (compare_versions_trans_all m.version e.version r0.version).2.1 hme her
    refine ⟨?_, m :: l1, l2, by rw [List.cons_append, ← hdec], ?_⟩
    · intro x hx
      rcases List.mem_cons.mp hx with rfl | hx'
      · exact le_of_lt hmr
      · exact hall x hx'
    · intro x hx
      rcases List.mem_cons.mp hx with rfl | hx'
      · exact hmr
      · exact hstrict x hx'

theorem isFirstMax_cons_le (m e : UpdateEntry) (es : List UpdateEntry)
    (r : Option UpdateEntry) (hc : ¬ compare_versions e.version m.version > 0)
    (h : IsFirstMax (m :: es) r) : IsFirstMax (m :: e :: es) r := by
  have hem : compare_versions e.version m.version ≤ 0 := by omega
  cases r with
  | none => exact absurd h (by simp [IsFirstMax])
  | some r0 =>
    obtain ⟨hall, l1, l2, hdec, hstrict⟩ := h
    have hmr : compare_versions m.version r0.version ≤ 0 := hall m (by simp)
    have her : compare_versions e.version r0.version ≤ 0 :=
      (compare_versions_trans_all e.version m.version r0.version).1 hem hmr
    have hall' : ∀ x ∈ m :: e :: es, compare_versions x.version r0.version ≤ 0 := by
      intro x hx
      rcases List.mem_cons.mp hx with rfl | hx'
      · exact hall x (by simp)
      · rcases List.mem_cons.mp hx' with rfl | hx''
        · exact her
        · exact hall x (by simp [hx''])
    cases l1 with
    | nil =>
      simp only [List.nil_append] at hdec
      have hm : m = r0 := by
        have := congrArg (fun l => l.head?) hdec
        simpa using this
      have hes : es = l2 := by
        have := congrArg (fun l => l.tail) hdec
        simpa using this
      exact ⟨hall', [], e :: es, by simp [hm], by simp⟩
    | cons x l1' =>
      have hm : m = x := by
        have := congrArg (fun l => l.head?) hdec
        simpa using this
      have hes : es = l1' ++ r0 :: l2 := by
        have := congrArg (fun l => l.tail) hdec
        simpa using this
      subst hm
      have hmr' : compare_versions m.version r0.version < 0 := hstrict m (by simp)
      have her' : compare_versions e.version r0.version < 0 :=
        (compare_versions_trans_all e.version m.version r0.version).2.2 hem hmr'
      refine ⟨hall', m :: e :: l1', l2, by simp [hes], ?_⟩
      intro y hy
      rcases List.mem_cons.mp hy with rfl | hy'
      · exact hmr'
      · rcases List.mem_cons.mp hy' with rfl | hy''
        · exact her'
        · exact hstrict y (by simp [hy''])

theorem selLatest_isFirstMax : ∀ (es : List UpdateEntry) (m : UpdateEntry),
    IsFirstMax (m :: es) (selLatest (some m) es) := by
  intro es
  induction es with
  | nil =>
    intro m
    refine ⟨?_, [], [], rfl, by simp⟩
    intro x hx
    rcases List.mem_singleton.mp hx with rfl
    rw [compare_versions_self]
  | cons e es' ih =>
    intro m
    by_cases hc : compare_versions e.version m.version > 0
    · rw [show selLatest (some m) (e :: es') = selLatest (some e) es' from by
        simp [selLatest, hc]]
      exact isFirstMax_cons_ge m e es' _ hc (ih e)
    · rw [show selLatest (some m) (e :: es') = selLatest (some m) es' from by
        simp [selLatest, hc]]
      exact isFirstMax_cons_le m e es' _ hc (ih m)

/-- Claim C5 as amended: for every descriptor text, platform tag and
running version, the first parser output is the first greatest-version
entry among the matched lines (ties broken by first occurrence, absent
exactly when no line matches), and the second output is the last matched
entry whose version compares equal to the running version under
compare-versions (not exact string equality). -/
theorem C5_parse_latest_current : ∀ text os_tag cur : String,
    IsFirstMax (matchedEntries text os_tag) (parse_descriptor text os_tag cur).1 ∧
    (parse_descriptor text os_tag cur).2 =
      (matchedEntries text os_tag).reverse.find?
        (fun e => compare_versions e.version cur == 0) := by
  intro text os_tag cur
  rw [parse_descriptor_eq_fold, foldl_descStep]
  constructor
  · cases hM : matchedEntries text os_tag with
    | nil => simp [selLatest, IsFirstMax]
    | cons m es =>
      rw [show selLatest none (m :: es) = selLatest (some m) es from rfl]
      exact selLatest_isFirstMax es m
  · rw [selCurrent_eq_find]
    cases hfind : (matchedEntries text os_tag).reverse.find?
        (fun e => compare_versions e.version cur == 0) <;> simp

/-- Counterexample to claim C5 as stated: the current output is selected
by compare-equality of versions, not by exact string equality; on the
descriptor line 1.00 with running version 1.0 the code returns the entry
while the claim says none exists. -/
theorem C5_counterexample :
    (parse_descriptor "1.00|l|u" "l" "1.0").2 ≠ specCurrentExact "1.00|l|u" "l" "1.0" := by
  decide

/-! Startup handshake: atomic-replace failure leaves the destination
untouched, success only swaps the destination. -/

theorem setFile_files_other (fs : FS) (p : String) (d : FileData) (q : String)
    (h : q ≠ p) : (setFile fs p d).files q = fs.files q := by
  simp [setFile, h]

theorem unlinkBestEffort_files_other (f : Faults) (fs : FS) (p q : String)
    (h : q ≠ p) : (unlinkBestEffort f fs p).files q = fs.files q := by
  unfold unlinkBestEffort removeFile
  cases f.unlink_fail <;> simp [h]

theorem atomic_replace_fault (f : Faults) (src dst tmp : String) (fs : FS)
    (hfail : f.copy_fail = true ∨ f.chmod_fail = true ∨ f.replace_fail = true)
    (hne : tmp ≠ dst) :
    (atomic_replace f src dst tmp fs).2 = false ∧
    (atomic_replace f src dst tmp fs).1.files dst = fs.files dst := by
  have hne' : dst ≠ tmp := Ne.symm hne
  unfold atomic_replace
  cases hcp : f.copy_fail with
  | true =>
    simp only [reduceIte]
    refine ⟨trivial, ?_⟩
    exact (unlinkBestEffort_files_other f _ tmp dst hne').trans
      (setFile_files_other fs tmp _ dst hne')
  | false =>
    simp only [Bool.false_eq_true, if_false]
    cases hsrc : (setFile fs tmp ⟨[], 0o600⟩).files src with
    | none =>
      refine ⟨rfl, ?_⟩
      exact (unlinkBestEffort_files_other f _ tmp dst hne').trans
        (setFile_files_other fs tmp _ dst hne')
    | some d =>
      cases hch : f.chmod_fail with
      | true =>
        simp only [reduceIte]
        refine ⟨trivial, ?_⟩
        exact (unlinkBestEffort_files_other f _ tmp dst hne').trans
          ((setFile_files_other _ tmp _ dst hne').trans
            (setFile_files_other fs tmp _ dst hne'))
      | false =>
        simp only [Bool.false_eq_true, if_false]
        cases hrp : f.replace_fail with
        | true =>
          simp only [reduceIte]
          refine ⟨trivial, ?_⟩
          exact (unlinkBestEffort_files_other f _ tmp dst hne').trans
            ((setFile_files_other _ tmp _ dst hne').trans
              ((setFile_files_other _ tmp _ dst hne').trans
                (setFile_files_other fs tmp _ dst hne')))
        | false =>
          rcases hfail with h | h | h
          · rw [hcp] at h; exact absurd h (by simp)
          · rw [hch] at h; exact absurd h (by simp)
          · rw [hrp] at h; exact absurd h (by simp)

theorem atomic_replace_ok (f : Faults) (src dst tmp : String) (fs : FS)
    (hcp : f.copy_fail = false) (hch : f.chmod_fail = false)
    (hrp : f.replace_fail = false) (d : FileData) (hsrc : fs.files src = some d)
    (htmp : src ≠ tmp) :
    (atomic_replace f src dst tmp fs).2 = true := by
  unfold atomic_replace
  rw [hcp]
  simp only [Bool.false_eq_true, if_false]
  rw [setFile_files_other fs tmp _ src htmp, hsrc]
  rw [hch, hrp]
  simp only [Bool.false_eq_true, if_false]

/-! Branch lemmas for the startup handshake. -/

theorem addDir_files (fs : FS) (d : String) : (addDir fs d).files = fs.files := rfl

theorem handle_empty_state (canon : String → String) (this_exe : String) (f : Faults)
    (tmp : String) (cfg : Config) (fs : FS)
    (h : pyStripStr cfg.update_state = "") :
    handle_pending_update_startup canon this_exe f tmp cfg fs =
      ⟨cfg, fs, false, false, false⟩ := by
  unfold handle_pending_update_startup
  rw [h]
  simp

theorem handle_staged_guard (canon : String → String) (this_exe : String) (f : Faults)
    (tmp : String) (cfg : Config) (fs : FS)
    (hstate : pyStripStr cfg.update_state = "staged")
    (hg : stagedPath canon cfg = "" ∨ oldPath canon cfg = "") :
    handle_pending_update_startup canon this_exe f tmp cfg fs =
      ⟨{ cfg with update_state := "" }, fs, true, false, false⟩ := by
  unfold handle_pending_update_startup
  rw [hstate]
  rcases hg with hg | hg <;> simp [hg]

theorem handle_staged_mismatch (canon : String → String) (this_exe : String) (f : Faults)
    (tmp : String) (cfg : Config) (fs : FS)
    (hstate : pyStripStr cfg.update_state = "staged")
    (hs : stagedPath canon cfg ≠ "") (ho : oldPath canon cfg ≠ "")
    (hne : this_exe ≠ stagedPath canon cfg) :
    handle_pending_update_startup canon this_exe f tmp cfg fs =
      ⟨cfg, fs, false, false, false⟩ := by
  unfold handle_pending_update_startup
  rw [hstate]
  simp [hs, ho, hne]

theorem handle_staged_mkfail (canon : String → String) (this_exe : String) (f : Faults)
    (tmp : String) (cfg : Config) (fs : FS)
    (hstate : pyStripStr cfg.update_state = "staged")
    (hs : stagedPath canon cfg ≠ "") (ho : oldPath canon cfg ≠ "")
    (hthis : this_exe = stagedPath canon cfg) (hmk : f.mkdirs_fail = true) :
    handle_pending_update_startup canon this_exe f tmp cfg fs =
      ⟨{ cfg with update_state := "" }, fs, true, false, false⟩ := by
  unfold handle_pending_update_startup
  rw [hstate, hthis]
  simp [hs, ho, hmk]

theorem handle_staged_run (canon : String → String) (this_exe : String) (f : Faults)
    (tmp : String) (cfg : Config) (fs : FS)
    (hstate : pyStripStr cfg.update_state = "staged")
    (hs : stagedPath canon cfg ≠ "") (ho : oldPath canon cfg ≠ "")
    (hthis : this_exe = stagedPath canon cfg) (hmk : f.mkdirs_fail = false) :
    handle_pending_update_startup canon this_exe f tmp cfg fs =
      (match atomic_replace f (stagedPath canon cfg) (oldPath canon cfg) tmp
          (addDir fs (if pyDirname (oldPath canon cfg) = "" then "."
                      else pyDirname (oldPath canon cfg))) with
       | (fs1, false) => ⟨{ cfg with update_state := "" }, fs1, true, false, false⟩
       | (fs1, true) =>
         if f.launch_fail then
           ⟨{ cfg with
                update_state := "copied"
                update_cleanup_exe := stagedPath canon cfg }, fs1, true, false, false⟩
         else
           ⟨{ cfg with
                update_state := "copied"
                update_cleanup_exe := stagedPath canon cfg },
            (match fs1.files (oldPath canon cfg) with
             | some od => setFile fs1 (oldPath canon cfg) ⟨od.content, od.mode ||| 0o111⟩
             | none => fs1), true, true, true⟩) := by
  unfold handle_pending_update_startup
  rw [hstate, hthis]
  simp [hs, ho, hmk]

theorem handle_copied_empty (canon : String → String) (this_exe : String) (f : Faults)
    (tmp : String) (cfg : Config) (fs : FS)
    (hstate : pyStripStr cfg.update_state = "copied")
    (ho : oldPath canon cfg = "") :
    handle_pending_update_startup canon this_exe f tmp cfg fs =
      ⟨clearedConfig, fs, true, false, false⟩ := by
  unfold handle_pending_update_startup
  rw [hstate]
  simp [ho]

theorem handle_copied_mismatch (canon : String → String) (this_exe : String) (f : Faults)
    (tmp : String) (cfg : Config) (fs : FS)
    (hstate : pyStripStr cfg.update_state = "copied")
    (ho : oldPath canon cfg ≠ "") (hne : this_exe ≠ oldPath canon cfg) :
    handle_pending_update_startup canon this_exe f tmp cfg fs =
      ⟨cfg, fs, false, false, false⟩ := by
  unfold handle_pending_update_startup
  rw [hstate]
  simp [ho, hne]

theorem handle_copied_match (canon : String → String) (this_exe : String) (f : Faults)
    (tmp : String) (cfg : Config) (fs : FS)
    (hstate : pyStripStr cfg.update_state = "copied")
    (ho : oldPath canon cfg ≠ "") (hthis : this_exe = oldPath canon cfg) :
    (handle_pending_update_startup canon this_exe f tmp cfg fs).cfg = clearedConfig ∧
    (handle_pending_update_startup canon this_exe f tmp cfg fs).saved = true := by
  unfold handle_pending_update_startup
  rw [hstate, hthis]
  simp [ho]

theorem handle_unrecognized (canon : String → String) (this_exe : String) (f : Faults)
    (tmp : String) (cfg : Config) (fs : FS)
    (h0 : pyStripStr cfg.update_state ≠ "")
    (h1 : pyStripStr cfg.update_state ≠ "staged")
    (h2 : pyStripStr cfg.update_state ≠ "copied") :
    handle_pending_update_startup canon this_exe f tmp cfg fs =
      ⟨cfg, fs, false, false, false⟩ := by
  unfold handle_pending_update_startup
  rw [if_neg h0, if_neg h1, if_neg h2]

/-- Claim C2: in state staged with both paths stored, a running executable
whose canonical path differs from the canonicalized staged path makes the
handshake return with the persisted update keys untouched, no save, and
the filesystem untouched (canonicalization of a nonempty path is nonempty,
hypothesized explicitly). -/
theorem C2_staged_mismatch_noop (canon : String → String) (this_exe : String)
    (f : Faults) (tmp : String) (cfg : Config) (fs : FS)
    (hstate : pyStripStr cfg.update_state = "staged")
    (hsne : cfg.update_staged_exe ≠ "") (hone : cfg.update_old_exe ≠ "")
    (hcs : canon cfg.update_staged_exe ≠ "") (hco : canon cfg.update_old_exe ≠ "")
    (hne : this_exe ≠ canon cfg.update_staged_exe) :
    handle_pending_update_startup canon this_exe f tmp cfg fs =
      ⟨cfg, fs, false, false, false⟩ := by
  have hSP : stagedPath canon cfg = canon cfg.update_staged_exe := if_pos hsne
  have hOP : oldPath canon cfg = canon cfg.update_old_exe := if_pos hone
  exact handle_staged_mismatch canon this_exe f tmp cfg fs hstate
    (by rw [hSP]; exact hcs) (by rw [hOP]; exact hco) (by rw [hSP]; exact hne)

/-- Witness for C2 at a concrete input. -/
theorem C2_staged_mismatch_noop_witness :
    handle_pending_update_startup id "/other" noFaults "/tmp0"
        ⟨"staged", "1.1", "/o", "/s", "", "", ""⟩
        ⟨fun p => if p = "/s" then some ⟨[7], 448⟩ else none, fun _ => false⟩ =
      ⟨⟨"staged", "1.1", "/o", "/s", "", "", ""⟩,
       ⟨fun p => if p = "/s" then some ⟨[7], 448⟩ else none, fun _ => false⟩,
       false, false, false⟩ :=
  C2_staged_mismatch_noop id "/other" noFaults "/tmp0" _ _
    (by decide) (by decide) (by decide) (by decide) (by decide) (by decide)

/-- Claim C1: in state staged with matching canonical path, a failure
injected at the copy, chmod or rename step of the atomic replace resets
the persisted state to the empty (none) value with a save, and the file at
the canonical old path is byte-for-byte unchanged. -/
theorem C1_staged_replace_failure (canon : String → String) (this_exe : String)
    (f : Faults) (tmp : String) (cfg : Config) (fs : FS)
    (hstate : pyStripStr cfg.update_state = "staged")
    (hsne : cfg.update_staged_exe ≠ "") (hone : cfg.update_old_exe ≠ "")
    (hthis : this_exe = canon cfg.update_staged_exe)
    (hmk : f.mkdirs_fail = false)
    (hfail : f.copy_fail = true ∨ f.chmod_fail = true ∨ f.replace_fail = true)
    (htmp : tmp ≠ canon cfg.update_old_exe) :
    (handle_pending_update_startup canon this_exe f tmp cfg fs).cfg.update_state = "" ∧
    (handle_pending_update_startup canon this_exe f tmp cfg fs).saved = true ∧
    (handle_pending_update_startup canon this_exe f tmp cfg fs).fs.files
        (canon cfg.update_old_exe) =
      fs.files (canon cfg.update_old_exe) := by
  have hSP : stagedPath canon cfg = canon cfg.update_staged_exe := if_pos hsne
  have hOP : oldPath canon cfg = canon cfg.update_old_exe := if_pos hone
  by_cases hg : canon cfg.update_staged_exe = "" ∨ canon cfg.update_old_exe = ""
  · rw [handle_staged_guard canon this_exe f tmp cfg fs hstate
      (by rcases hg with h | h
          exacts [Or.inl (by rw [hSP]; exact h), Or.inr (by rw [hOP]; exact h)])]
    exact ⟨rfl, rfl, rfl⟩
  · push_neg at hg
    obtain ⟨hcs, hco⟩ := hg
    rw [handle_staged_run canon this_exe f tmp cfg fs hstate
      (by rw [hSP]; exact hcs) (by rw [hOP]; exact hco) (by rw [hSP]; exact hthis) hmk]
    obtain ⟨hok, hfiles⟩ := atomic_replace_fault f (stagedPath canon cfg) (oldPath canon cfg)
      tmp (addDir fs (if pyDirname (oldPath canon cfg) = "" then "."
                      else pyDirname (oldPath canon cfg)))
      hfail (by rw [hOP]; exact htmp)
    cases hare : atomic_replace f (stagedPath canon cfg) (oldPath canon cfg) tmp
        (addDir fs (if pyDirname (oldPath canon cfg) = "" then "."
                    else pyDirname (oldPath canon cfg))) with
    | mk fs1 ok =>
      rw [hare] at hok hfiles
      simp only at hok hfiles
      cases ok with
      | true => exact absurd hok (by simp)
      | false =>
        refine ⟨rfl, rfl, ?_⟩
        rw [hOP] at hfiles
        rw [addDir_files] at hfiles
        exact hfiles

/-- Witness for C1 at a concrete input with a forced rename failure. -/
theorem C1_staged_replace_failure_witness :
    (handle_pending_update_startup id "/s" { noFaults with replace_fail := true } "/tmp0"
        ⟨"staged", "1.1", "/o", "/s", "", "", ""⟩
        ⟨fun p => if p = "/s" then some ⟨[7], 448⟩
                  else if p = "/o" then some ⟨[1], 448⟩ else none,
         fun _ => false⟩).cfg.update_state = "" ∧
    (handle_pending_update_startup id "/s" { noFaults with replace_fail := true } "/tmp0"
        ⟨"staged", "1.1", "/o", "/s", "", "", ""⟩
        ⟨fun p => if p = "/s" then some ⟨[7], 448⟩
                  else if p = "/o" then some ⟨[1], 448⟩ else none,
         fun _ => false⟩).saved = true ∧
    (handle_pending_update_startup id "/s" { noFaults with replace_fail := true } "/tmp0"
        ⟨"staged", "1.1", "/o", "/s", "", "", ""⟩
        ⟨fun p => if p = "/s" then some ⟨[7], 448⟩
                  else if p = "/o" then some ⟨[1], 448⟩ else none,
         fun _ => false⟩).fs.files (id "/o") =
      FS.files ⟨fun p => if p = "/s" then some ⟨[7], 448⟩
                         else if p = "/o" then some ⟨[1], 448⟩ else none,
                fun _ => false⟩ (id "/o") :=
  C1_staged_replace_failure id "/s" { noFaults with replace_fail := true } "/tmp0" _ _
    (by decide) (by decide) (by decide) rfl (by decide)
    (Or.inr (Or.inr (by decide))) (by decide)

/-- Claim C4: a fault-free atomic replace moves the persisted state from
staged to copied with the cleanup path set to the canonicalized staged
path (whatever the launch outcome), and a subsequent startup in state
copied whose running canonical path equals the stored old path clears
every update key to the none record under every deletion-fault oracle. -/
theorem C4_replace_success_then_cleanup :
    (∀ (canon : String → String) (this_exe : String) (f : Faults) (tmp : String)
       (cfg : Config) (fs : FS) (d : FileData),
       pyStripStr cfg.update_state = "staged" →
       cfg.update_staged_exe ≠ "" → cfg.update_old_exe ≠ "" →
       canon cfg.update_staged_exe ≠ "" → canon cfg.update_old_exe ≠ "" →
       this_exe = canon cfg.update_staged_exe →
       f.mkdirs_fail = false → f.copy_fail = false → f.chmod_fail = false →
       f.replace_fail = false →
       fs.files (canon cfg.update_staged_exe) = some d →
       canon cfg.update_staged_exe ≠ tmp →
       (handle_pending_update_startup canon this_exe f tmp cfg fs).cfg =
         { cfg with
             update_state := "copied"
             update_cleanup_exe := canon cfg.update_staged_exe } ∧
       (handle_pending_update_startup canon this_exe f tmp cfg fs).saved = true) ∧
    (∀ (canon : String → String) (this_exe : String) (f : Faults) (tmp : String)
       (cfg : Config) (fs : FS),
       pyStripStr cfg.update_state = "copied" →
       cfg.update_old_exe ≠ "" →
       this_exe = canon cfg.update_old_exe →
       (handle_pending_update_startup canon this_exe f tmp cfg fs).cfg = clearedConfig ∧
       (handle_pending_update_startup canon this_exe f tmp cfg fs).saved = true) := by
  constructor
  · intro canon this_exe f tmp cfg fs d hstate hsne hone hcs hco hthis hmk hcp hch hrp hsd htmp
    have hSP : stagedPath canon cfg = canon cfg.update_staged_exe := if_pos hsne
    have hOP : oldPath canon cfg = canon cfg.update_old_exe := if_pos hone
    rw [handle_staged_run canon this_exe f tmp cfg fs hstate
      (by rw [hSP]; exact hcs) (by rw [hOP]; exact hco) (by rw [hSP]; exact hthis) hmk]
    have hok := atomic_replace_ok f (stagedPath canon cfg) (oldPath canon cfg) tmp
      (addDir fs (if pyDirname (oldPath canon cfg) = "" then "."
                  else pyDirname (oldPath canon cfg)))
      hcp hch hrp d (by rw [addDir_files, hSP]; exact hsd) (by rw [hSP]; exact htmp)
    cases hare : atomic_replace f (stagedPath canon cfg) (oldPath canon cfg) tmp
        (addDir fs (if pyDirname (oldPath canon cfg) = "" then "."
                    else pyDirname (oldPath canon cfg))) with
    | mk fs1 ok =>
      rw [hare] at hok
      simp only at hok
      cases ok with
      | false => exact absurd hok (by simp)
      | true =>
        cases hl : f.launch_fail with
        | true =>
          simp only [hl, if_pos]
          exact ⟨by rw [hSP], trivial⟩
        | false =>
          simp only [hl, Bool.false_eq_true, if_false]
          exact ⟨by rw [hSP], trivial⟩
  · intro canon this_exe f tmp cfg fs hstate hone hthis
    have hOP : oldPath canon cfg = canon cfg.update_old_exe := if_pos hone
    by_cases hco : canon cfg.update_old_exe = ""
    · rw [handle_copied_empty canon this_exe f tmp cfg fs hstate (hOP.trans hco)]
      exact ⟨rfl, rfl⟩
    · exact handle_copied_match canon this_exe f tmp cfg fs hstate
        (by rw [hOP]; exact hco) (by rw [hOP]; exact hthis)

/-- Witness for C4: a fault-free replace at a concrete input, and a
concrete copied-state cleanup with every deletion failing. -/
theorem C4_replace_success_then_cleanup_witness :
    ((handle_pending_update_startup id "/s" noFaults "/tmp0"
        ⟨"staged", "1.1", "/o", "/s", "", "", ""⟩
        ⟨fun p => if p = "/s" then some ⟨[7], 448⟩ else none, fun _ => false⟩).cfg =
      { (⟨"staged", "1.1", "/o", "/s", "", "", ""⟩ : Config) with
          update_state := "copied"
          update_cleanup_exe := id "/s" } ∧
     (handle_pending_update_startup id "/s" noFaults "/tmp0"
        ⟨"staged", "1.1", "/o", "/s", "", "", ""⟩
        ⟨fun p => if p = "/s" then some ⟨[7], 448⟩ else none, fun _ => false⟩).saved = true) ∧
    ((handle_pending_update_startup id "/o"
        { noFaults with
            remove_cleanup_fail := true
            remove_archive_fail := true
            rmtree_fail := true } "/tmp0"
        ⟨"copied", "1.1", "/o", "/s", "/d", "/a.zip", "/s"⟩
        ⟨fun _ => none, fun _ => false⟩).cfg = clearedConfig ∧
     (handle_pending_update_startup id "/o"
        { noFaults with
            remove_cleanup_fail := true
            remove_archive_fail := true
            rmtree_fail := true } "/tmp0"
        ⟨"copied", "1.1", "/o", "/s", "/d", "/a.zip", "/s"⟩
        ⟨fun _ => none, fun _ => false⟩).saved = true) :=
  ⟨C4_replace_success_then_cleanup.1 id "/s" noFaults "/tmp0" _ _ ⟨[7], 448⟩
     (by decide) (by decide) (by decide) (by decide) (by decide) rfl
     (by decide) (by decide) (by decide) (by decide) (by decide) (by decide),
   C4_replace_success_then_cleanup.2 id "/o"
     { noFaults with
         remove_cleanup_fail := true
         remove_archive_fail := true
         rmtree_fail := true } "/tmp0" _ _
     (by decide) (by decide) rfl⟩

/-- Claim C3 as amended: every startup-handshake write that ends with the
state field empty either only resets the state field, leaving every other
update field exactly as it was (the staged-branch failure paths), or
clears every update field (the copied-branch paths); and the configuration
written by the stager when staging satisfies the claimed invariant
whenever the old path it stores is nonempty. -/
theorem C3_none_write_shape :
    (∀ (canon : String → String) (this_exe : String) (f : Faults) (tmp : String)
       (cfg : Config) (fs : FS),
       (handle_pending_update_startup canon this_exe f tmp cfg fs).saved = true →
       (handle_pending_update_startup canon this_exe f tmp cfg fs).cfg.update_state = "" →
       ((handle_pending_update_startup canon this_exe f tmp cfg fs).cfg =
          { cfg with update_state := "" } ∨
        (handle_pending_update_startup canon this_exe f tmp cfg fs).cfg = clearedConfig)) ∧
    (∀ version old_exe staged_exe stage_dir archive : String, old_exe ≠ "" →
       claimInvariant (finalize_cfg_write version old_exe staged_exe stage_dir archive)) := by
  constructor
  · intro canon this_exe f tmp cfg fs hsv hst
    by_cases h0 : pyStripStr cfg.update_state = ""
    · rw [handle_empty_state canon this_exe f tmp cfg fs h0] at hsv
      exact absurd hsv (by simp)
    · by_cases h1 : pyStripStr cfg.update_state = "staged"
      · by_cases hg : stagedPath canon cfg = "" ∨ oldPath canon cfg = ""
        · rw [handle_staged_guard canon this_exe f tmp cfg fs h1 hg]
          exact Or.inl rfl
        · push_neg at hg
          obtain ⟨hs, ho⟩ := hg
          by_cases hth : this_exe = stagedPath canon cfg
          · cases hmk : f.mkdirs_fail with
            | true =>
              rw [handle_staged_mkfail canon this_exe f tmp cfg fs h1 hs ho hth hmk]
              exact Or.inl rfl
            | false =>
              rw [handle_staged_run canon this_exe f tmp cfg fs h1 hs ho hth hmk] at hst ⊢
              cases hare : atomic_replace f (stagedPath canon cfg) (oldPath canon cfg) tmp
                  (addDir fs (if pyDirname (oldPath canon cfg) = "" then "."
                              else pyDirname (oldPath canon cfg))) with
              | mk fs1 ok =>
                cases ok with
                | false => exact Or.inl rfl
                | true =>
                  rw [hare] at hst
                  cases hl : f.launch_fail with
                  | true => rw [hl] at hst; simp at hst
                  | false => rw [hl] at hst; simp at hst
          · rw [handle_staged_mismatch canon this_exe f tmp cfg fs h1 hs ho hth] at hsv
            exact absurd hsv (by simp)
      · by_cases h2 : pyStripStr cfg.update_state = "copied"
        · by_cases ho : oldPath canon cfg = ""
          · rw [handle_copied_empty canon this_exe f tmp cfg fs h2 ho]
            exact Or.inr rfl
          · by_cases hth : this_exe = oldPath canon cfg
            · exact Or.inr (handle_copied_match canon this_exe f tmp cfg fs h2 ho hth).1
            · rw [handle_copied_mismatch canon this_exe f tmp cfg fs h2 ho hth] at hsv
              exact absurd hsv (by simp)
        · rw [handle_unrecognized canon this_exe f tmp cfg fs h0 h1 h2] at hsv
          exact absurd hsv (by simp)
  · intro version old_exe staged_exe stage_dir archive h
    simp [claimInvariant, finalize_cfg_write, h]

/-- Witness for C3 as amended: a staged record with a missing staged path
is written back with only the state reset, and a concrete stager write
satisfies the invariant. -/
theorem C3_none_write_shape_witness :
    (((handle_pending_update_startup id "/t" noFaults "/tmp0"
        ⟨"staged", "9", "/o", "", "", "", ""⟩
        ⟨fun _ => none, fun _ => false⟩).cfg =
       { (⟨"staged", "9", "/o", "", "", "", ""⟩ : Config) with update_state := "" } ∨
      (handle_pending_update_startup id "/t" noFaults "/tmp0"
        ⟨"staged", "9", "/o", "", "", "", ""⟩
        ⟨fun _ => none, fun _ => false⟩).cfg = clearedConfig)) ∧
    claimInvariant (finalize_cfg_write "1.1" "/o" "/s" "/d" "/a.zip") :=
  ⟨C3_none_write_shape.1 id "/t" noFaults "/tmp0" _ _ (by decide) (by decide),
   C3_none_write_shape.2 "1.1" "/o" "/s" "/d" "/a.zip" (by decide)⟩

/-- Counterexample to claim C3 as stated: a staged record with an empty
staged path but a nonempty version and old path satisfies the invariant,
the handshake writes it back (a save occurs), and the written record has
the empty state with the other fields still populated, violating the
invariant. -/
theorem C3_counterexample :
    claimInvariant ⟨"staged", "9", "/o", "", "", "", ""⟩ ∧
    (handle_pending_update_startup id "/t" noFaults "/tmp0"
        ⟨"staged", "9", "/o", "", "", "", ""⟩
        ⟨fun _ => none, fun _ => false⟩).saved = true ∧
    ¬ claimInvariant (handle_pending_update_startup id "/t" noFaults "/tmp0"
        ⟨"staged", "9", "/o", "", "", "", ""⟩
        ⟨fun _ => none, fun _ => false⟩).cfg := by
  refine ⟨by decide, by decide, by decide⟩

/-- Claim C10 as amended: a persisted state value whose whitespace-stripped
form is nonempty and neither staged nor copied makes the startup handshake
a complete no-op: no save, the update keys unchanged, the filesystem
unchanged, nothing launched. -/
theorem C10_unrecognized_state_noop (canon : String → String) (this_exe : String)
    (f : Faults) (tmp : String) (cfg : Config) (fs : FS)
    (h0 : pyStripStr cfg.update_state ≠ "")
    (h1 : pyStripStr cfg.update_state ≠ "staged")
    (h2 : pyStripStr cfg.update_state ≠ "copied") :
    handle_pending_update_startup canon this_exe f tmp cfg fs =
      ⟨cfg, fs, false, false, false⟩ :=
  handle_unrecognized canon this_exe f tmp cfg fs h0 h1 h2

/-- Witness for C10 as amended at a concrete unrecognized state value. -/
theorem C10_unrecognized_state_noop_witness :
    handle_pending_update_startup id "/t" noFaults "/tmp0"
        ⟨"weird", "9", "/o", "/s", "", "", ""⟩ ⟨fun _ => none, fun _ => false⟩ =
      ⟨⟨"weird", "9", "/o", "/s", "", "", ""⟩, ⟨fun _ => none, fun _ => false⟩,
       false, false, false⟩ :=
  C10_unrecognized_state_noop id "/t" noFaults "/tmp0" _ _
    (by decide) (by decide) (by decide)

/-- Counterexample to claim C10 as stated: the stored value staged followed
by a space is a non-empty string different from staged and copied, yet the
handshake strips it, matches the staged branch, saves, and clears the state
instead of leaving it in place. -/
theorem C10_counterexample :
    (handle_pending_update_startup id "/t" noFaults "/tmp0"
        ⟨"staged ", "", "", "", "", "", ""⟩
        ⟨fun _ => none, fun _ => false⟩).saved = true ∧
    (handle_pending_update_startup id "/t" noFaults "/tmp0"
        ⟨"staged ", "", "", "", "", "", ""⟩
        ⟨fun _ => none, fun _ => false⟩).cfg.update_state = "" := by
  refine ⟨by decide, by decide⟩

/-- Claim C6: with a successful fetch, a latest entry present and a current
entry carrying the deprecated flag, the decision is deprecated for every
skip version, every ignore-skip setting and every latest version. -/
theorem C6_deprecated_precedence (app_version skip_version : String)
    (ignore_skip : Bool) (l c : UpdateEntry)
    (hdep : "deprecated" ∈ c.flags) :
    finalize_descriptor_result app_version skip_version ignore_skip
      "ok" (some l) (some c) = "deprecated" := by
  have hc : c.flags.contains "deprecated" = true := List.elem_iff.mpr hdep
  simp only [finalize_descriptor_result]
  rw [hc]
  simp

/-- Witness for C6 with a compare-equal latest and a matching skip value,
the two conditions the claim says are overridden. -/
theorem C6_deprecated_precedence_witness :
    finalize_descriptor_result "1.0" "1.0" false
      "ok" (some ⟨"1.0", [], "u"⟩) (some ⟨"1.0", ["deprecated"], "u"⟩) = "deprecated" :=
  C6_deprecated_precedence "1.0" "1.0" false ⟨"1.0", [], "u"⟩
    ⟨"1.0", ["deprecated"], "u"⟩ (by decide)

/-- Claim C9: a descriptor request issued while the in-flight guard is set
resolves immediately as error, issues no network request, and leaves the
client state, including the pending ignore-skip setting and result
callback, unchanged. -/
theorem C9_inflight_guard (st : ClientState) (ignore_skip : Bool) (cb : Option Nat)
    (h : st.in_flight = true) :
    request_descriptor st ignore_skip cb = ⟨st, some "error", false⟩ := by
  unfold request_descriptor
  by_cases h0 : st.os_tag = ""
  · rw [if_pos h0]
  · rw [if_neg h0, if_pos h]

/-- Witness for C9 at a concrete in-flight client state. -/
theorem C9_inflight_guard_witness :
    request_descriptor ⟨"linux", true, false, some 1⟩ true (some 2) =
      ⟨⟨"linux", true, false, some 1⟩, some "error", false⟩ :=
  C9_inflight_guard ⟨"linux", true, false, some 1⟩ true (some 2) (by decide)

end ReNight
